import Mathlib

/-!
Verification of the PicoAirSense firmware (src/bme280.py and src/main.py).

The Python driver and application code are shallowly embedded: pure byte
decoders become functions on Nat/Int, register traffic becomes explicit
traces of bus operations, file contents become lists of characters, and
the wall-clock state of the baseline saver becomes an explicit state value
threaded through the step function.
-/

namespace PicoAirSense

/-! ### Register codec (bme280.py, static helpers of class BME280) -/

/-- `BME280._u16_le` (bme280.py:200-205): `low | (high << 8)`. -/
def u16_le (low high : Nat) : Nat :=
  low ||| (high <<< 8)

/-- `BME280._s16_le` (bme280.py:207-215): combine the bytes little-endian,
then, if bit 15 is set, subtract `0x100000` (the literal that appears in the
source) before returning. -/
def s16_le (low high : Nat) : Int :=
  let value := low ||| (high <<< 8)
  if value &&& 0x8000 ≠ 0 then (value : Int) - 0x100000 else (value : Int)

/-- `BME280._s8` (bme280.py:217-222): `b - 0x100 if b & 0x80 else b`. -/
def s8 (b : Nat) : Int :=
  if b &&& 0x80 ≠ 0 then (b : Int) - 0x100 else (b : Int)

/-- Raw 12-bit assembly for `dig_H4` (bme280.py:178):
`(e4 << 4) | (e5 & 0x0F)`. -/
def digH4_raw (e4 e5 : Nat) : Nat :=
  (e4 <<< 4) ||| (e5 &&& 0x0F)

/-- `dig_H4` decode (bme280.py:178-182): assemble the 12-bit value, then
subtract `1 << 12` when bit 11 is set. -/
def digH4 (e4 e5 : Nat) : Int :=
  let raw := digH4_raw e4 e5
  if raw &&& 0x800 ≠ 0 then (raw : Int) - (1 <<< 12 : Nat) else (raw : Int)

/-- Raw 12-bit assembly for `dig_H5` (bme280.py:185):
`(e6 << 4) | (e5 >> 4)`. -/
def digH5_raw (e5 e6 : Nat) : Nat :=
  (e6 <<< 4) ||| (e5 >>> 4)

/-- `dig_H5` decode (bme280.py:185-189): assemble the 12-bit value, then
subtract `1 << 12` when bit 11 is set. -/
def digH5 (e5 e6 : Nat) : Int :=
  let raw := digH5_raw e5 e6
  if raw &&& 0x800 ≠ 0 then (raw : Int) - (1 <<< 12 : Nat) else (raw : Int)

/-- Encoder for the packed nibble-shared 12-bit layout, written after the
spec's description (spec 4.1/8): the high byte carries bits 11:4 and the
shared nibble carries bits 3:0 of the 12-bit two's-complement image of `v`.
Returns `(highByte, nibble)`. -/
def encode12 (v : Int) : Nat × Nat :=
  let u := (v % 4096).toNat
  (u >>> 4, u &&& 0x0F)

/-! ### Configuration (bme280.py, `BME280._configure`) -/

/-- The constructor options of class `BME280` (bme280.py:74-89) that feed
`_configure`. -/
structure BMEOptions where
  spi3w_en : Nat
  osrs_t : Nat
  osrs_p : Nat
  osrs_h : Nat
  filter_coef : Nat
  t_sb : Nat
  mode : Nat
  deriving DecidableEq, Repr

/-- The constructor defaults (bme280.py:74-76): `spi3w_en=0, osrs_t=1,
osrs_p=1, osrs_h=1, filter_coef=0, t_sb=0, mode=0`. -/
def defaultOptions : BMEOptions :=
  ⟨0, 1, 1, 1, 0, 0, 0⟩

/-- Replace the `osrs_h` field. -/
def withOsrsH (o : BMEOptions) (v : Nat) : BMEOptions :=
  ⟨o.spi3w_en, o.osrs_t, o.osrs_p, v, o.filter_coef, o.t_sb, o.mode⟩

/-- Replace the `osrs_t` field. -/
def withOsrsT (o : BMEOptions) (v : Nat) : BMEOptions :=
  ⟨o.spi3w_en, v, o.osrs_p, o.osrs_h, o.filter_coef, o.t_sb, o.mode⟩

/-- Replace the `osrs_p` field. -/
def withOsrsP (o : BMEOptions) (v : Nat) : BMEOptions :=
  ⟨o.spi3w_en, o.osrs_t, v, o.osrs_h, o.filter_coef, o.t_sb, o.mode⟩

/-- `ctrl_hum` byte (bme280.py:274): `osrs_h & 0x07`. -/
def ctrlHumByte (o : BMEOptions) : Nat :=
  o.osrs_h &&& 0x07

/-- `config` byte (bme280.py:278-279):
`((t_sb & 0x07) << 5) | ((filter_coef & 0x07) << 2) | spi3w_en`.
Note that `spi3w_en` is not masked in the source. -/
def configByte (o : BMEOptions) : Nat :=
  ((o.t_sb &&& 0x07) <<< 5) ||| ((o.filter_coef &&& 0x07) <<< 2) ||| o.spi3w_en

/-- `ctrl_meas` byte (bme280.py:283-284):
`((osrs_t & 0x07) << 5) | ((osrs_p & 0x07) << 2) | (mode & 0x03)`. -/
def ctrlMeasByte (o : BMEOptions) : Nat :=
  ((o.osrs_t &&& 0x07) <<< 5) ||| ((o.osrs_p &&& 0x07) <<< 2) ||| (o.mode &&& 0x03)

/-- `BME280._configure` (bme280.py:273-285) as a trace of `(register, byte)`
writes.  The three writes happen in source order: `CTRL_HUM` (0xF2), then
`CONFIG` (0xF5), then `CTRL_MEAS` (0xF4).  `bytes([v])` in Python raises
`ValueError` when `v > 255`; `ctrl_hum` and `ctrl_meas` are masked so they
always fit in a byte, but `config` includes the unmasked `spi3w_en`, so the
sequence aborts after the first write when the `config` byte is out of
range.  The Bool records whether the method ran to completion. -/
def configureRun (o : BMEOptions) : List (Nat × Nat) × Bool :=
  if configByte o < 256 then
    ([(0xF2, ctrlHumByte o), (0xF5, configByte o), (0xF4, ctrlMeasByte o)], true)
  else
    ([(0xF2, ctrlHumByte o)], false)

/-! ### Driver initialization (bme280.py, `BME280.__init__`) -/

/-- One bus operation performed by the driver. -/
inductive BusOp where
  | read (reg len : Nat)
  | write (reg val : Nat)
  deriving DecidableEq, Repr

/-- Outcome of `BME280.__init__`. -/
inductive InitOutcome where
  /-- Initialization ran to completion. -/
  | ok
  /-- The `RuntimeError` raised at bme280.py:93-95, carrying the chip id
  that was actually read. -/
  | chipIdError (actual : Nat)
  /-- The `ValueError` raised by `bytes([config])` inside `_configure` when
  the config byte exceeds 255. -/
  | byteRangeError
  deriving DecidableEq, Repr

/-- `BME280.__init__` (bme280.py:74-101) as a trace over a device whose
register bytes are given by `regs`.  The constructor first reads one byte at
0xD0 (`_read_u8(0xD0)`), raises if it is not 0x60, otherwise runs
`_read_calibration_data` (two burst reads: 26 bytes at 0x88, 7 bytes at
0xE1, bme280.py:141 and 165) and then `_configure`. -/
def bmeInit (regs : Nat → Nat) (o : BMEOptions) : List BusOp × InitOutcome :=
  if regs 0xD0 ≠ 0x60 then
    ([BusOp.read 0xD0 1], InitOutcome.chipIdError (regs 0xD0))
  else
    ([BusOp.read 0xD0 1, BusOp.read 0x88 26, BusOp.read 0xE1 7]
        ++ (configureRun o).1.map (fun w => BusOp.write w.1 w.2),
      if (configureRun o).2 then InitOutcome.ok else InitOutcome.byteRangeError)

/-! ### Baseline persistence (main.py) -/

/-- The whitespace characters stripped by Python's `str.strip()` (for the
ASCII range relevant here). -/
def pyIsSpace (c : Char) : Bool :=
  c = ' ' || c = '\t' || c = '\n' || c = '\r' || c = '\x0b' || c = '\x0c'

/-- Python `str.strip()`: drop whitespace from both ends. -/
def pyStrip (l : List Char) : List Char :=
  ((l.dropWhile pyIsSpace).reverse.dropWhile pyIsSpace).reverse

/-- Python `str.split(",")`: split on every comma, keeping empty pieces. -/
def splitComma : List Char → List (List Char)
  | [] => [[]]
  | c :: rest =>
    if c = ',' then [] :: splitComma rest
    else
      match splitComma rest with
      | h :: t => (c :: h) :: t
      | [] => [[c]]

/-- Numeric value of a digit string, most significant digit first. -/
def digitsVal (l : List Char) : Nat :=
  l.foldl (fun a c => 10 * a + (c.toNat - 48)) 0

/-- Parse a nonempty all-digit string; `none` otherwise. -/
def parseDigits (l : List Char) : Option Nat :=
  if l ≠ [] ∧ l.all Char.isDigit then some (digitsVal l) else none

/-- The sign-and-digit part of Python's `int(str)`: allow one leading sign,
then require a nonempty run of digits. -/
def pyIntSigned : List Char → Option Int
  | [] => none
  | c :: r =>
    if c = '+' then Option.map (fun n : Nat => (n : Int)) (parseDigits r)
    else if c = '-' then Option.map (fun n : Nat => -(n : Int)) (parseDigits r)
    else Option.map (fun n : Nat => (n : Int)) (parseDigits (c :: r))

/-- Python's `int(str)` on a decimal string: strip whitespace, then parse
an optionally signed run of digits; raising `ValueError` is modelled as
`none`.  (Python additionally allows underscores between digits; none of
the strings this program produces or the spec mentions contain them.) -/
def pyInt (l : List Char) : Option Int :=
  pyIntSigned (pyStrip l)

/-- `load_sgp30_baseline` (main.py:109-153) over the file contents.
`none` as input models a missing file (`open` raising `OSError`, caught at
main.py:146 and turned into `False`); the result is `none` for every path
that returns `False` (empty after strip, field count ≠ 2, `ValueError`
from `int`, caught at main.py:151) and `some (co2eq, tvoc)` for the
successful path that applies the baseline and returns `True`. -/
def load_sgp30_baseline (content : Option (List Char)) : Option (Int × Int) :=
  match content with
  | none => none
  | some raw =>
    let line := pyStrip raw
    if line = [] then none
    else
      match splitComma line with
      | [p0, p1] =>
        match pyInt p0, pyInt p1 with
        | some co2eq, some tvoc => some (co2eq, tvoc)
        | _, _ => none
      | _ => none

/-- Decimal rendering of a natural number, as Python's `str` / `format`
produce for a nonnegative `int`. -/
def digitChar : Nat → Char
  | 0 => '0'
  | 1 => '1'
  | 2 => '2'
  | 3 => '3'
  | 4 => '4'
  | 5 => '5'
  | 6 => '6'
  | 7 => '7'
  | 8 => '8'
  | _ => '9'

/-- Decimal digits of `n`, most significant first. -/
def natDecimal (n : Nat) : List Char :=
  if _h : n < 10 then [digitChar n]
  else natDecimal (n / 10) ++ [digitChar (n % 10)]
  decreasing_by exact Nat.div_lt_self (by omega) (by omega)

/-- The file contents written by `save_sgp30_baseline` (main.py:171-172):
`"\x7b\x7d,\x7b\x7d\n".format(co2eq, tvoc)`, i.e. the two decimal numbers
separated by a comma and followed by a newline. -/
def save_content (co2eq tvoc : Nat) : List Char :=
  natDecimal co2eq ++ [','] ++ natDecimal tvoc ++ ['\n']

/-- `maybe_save_sgp30_baseline` (main.py:181-198) as a step function on the
`_last_baseline_save` global (initially `0`, main.py:28).  Input: current
value of the global, the value `time.time()` returns now, and the save
interval.  Output: the new value of the global and whether
`save_sgp30_baseline` was invoked.  A successful save stores the current
time into the global (main.py:175). -/
def maybe_save (last now interval : Int) : Int × Bool :=
  if last = 0 then (now, false)
  else if interval ≤ now - last then (now, true)
  else (last, false)

/-! ### Measurement pipeline (main.py, `read_environment`) -/

/-- The externally visible sensor operations issued by `read_environment`. -/
inductive SensorOp where
  /-- `bme.read()`: read and compensate the environmental sensor. -/
  | bmeRead
  /-- `sgp.set_iaq_rel_humidity(hum, temp)`. -/
  | setIaqRelHumidity (hum temp : Int)
  /-- `sgp.iaq_measure()`. -/
  | iaqMeasure
  deriving DecidableEq, Repr

/-- `read_environment` (main.py:206-225) over abstract sensor results:
`bmeOut` is what `bme.read()` returns (temperature, pressure, humidity) and
`sgpOut` is what `sgp.iaq_measure()` returns (eco2, tvoc).  The result is
the returned 5-tuple together with the trace of sensor operations in the
order the source issues them. -/
def read_environment (bmeOut : Int × Int × Int) (sgpOut : Int × Int) :
    (Int × Int × Int × Int × Int) × List SensorOp :=
  let t := bmeOut.1
  let p := bmeOut.2.1
  let h := bmeOut.2.2
  let eco2 := sgpOut.1
  let tvoc := sgpOut.2
  ((t, p, h, eco2, tvoc),
    [SensorOp.bmeRead, SensorOp.setIaqRelHumidity h t, SensorOp.iaqMeasure])

/-! ### Pressure compensation (spec 4.5; the code in bme280.py `read_raw` /
`read` is an unimplemented placeholder, so this part is modelled from the
spec). -/

/-- The nine pressure trim coefficients `dig_P1 .. dig_P9`. -/
structure PressureCalib where
  P1 : Int
  P2 : Int
  P3 : Int
  P4 : Int
  P5 : Int
  P6 : Int
  P7 : Int
  P8 : Int
  P9 : Int
  deriving DecidableEq, Repr

/-- Modelled from the spec: the "intermediate denominator term" of the
manufacturer nine-term pressure formula (spec 4.5), the 64-bit `var1`
value that the formula divides by.  Arithmetic right shifts are modelled
with `Int.fdiv` (floor division). -/
def pressureDenominator (t_fine : Int) (c : PressureCalib) : Int :=
  let v := t_fine - 128000
  Int.fdiv ((2 ^ 47 + (Int.fdiv (v * v * c.P3) (2 ^ 8) + v * c.P2 * 2 ^ 12)) * c.P1)
    (2 ^ 33)

/-- Modelled from the spec: the manufacturer nine-term `dig_P1..P9` pressure
compensation formula (spec 4.5), missing from bme280.py where `read_raw` and
the compensation in `read` are `TODO` placeholders.  If the intermediate
denominator term is exactly zero the formula returns 0 (0 Pa) instead of
dividing; otherwise it applies the published 64-bit integer formula.  The
result is in Q24.8 fixed point (a result of 0 is 0 Pa). -/
def compensate_pressure (adc_P t_fine : Int) (c : PressureCalib) : Int :=
  let v := t_fine - 128000
  let var2 := v * v * c.P6 + v * c.P5 * 2 ^ 17 + c.P4 * 2 ^ 35
  let var1 := pressureDenominator t_fine c
  if var1 = 0 then 0
  else
    let p := 1048576 - adc_P
    let p := Int.fdiv ((p * 2 ^ 31 - var2) * 3125) var1
    let va := Int.fdiv (c.P9 * Int.fdiv p (2 ^ 13) * Int.fdiv p (2 ^ 13)) (2 ^ 25)
    let vb := Int.fdiv (c.P8 * p) (2 ^ 19)
    Int.fdiv (p + va + vb) (2 ^ 8) + c.P7 * 2 ^ 4

/-! ### Helper lemmas -/

/-- Masking with 7 is reduction mod 8. -/
theorem and_seven_eq_mod (n : Nat) : n &&& 7 = n % 8 :=
  Nat.and_pow_two_sub_one_eq_mod n 3

/-- Masking with 3 is reduction mod 4. -/
theorem and_three_eq_mod (n : Nat) : n &&& 3 = n % 4 :=
  Nat.and_pow_two_sub_one_eq_mod n 2

/-- Masking with 15 is reduction mod 16. -/
theorem and_fifteen_eq_mod (n : Nat) : n &&& 15 = n % 16 :=
  Nat.and_pow_two_sub_one_eq_mod n 4

/-- The 3-bit/3-bit/2-bit field packing used by the configuration bytes,
characterised arithmetically on in-range fields. -/
theorem pack_fields : ∀ x, x < 8 → ∀ y, y < 8 → ∀ z, z < 4 →
    (x <<< 5) ||| (y <<< 2) ||| z = x * 32 + y * 4 + z := by
  decide

set_option maxRecDepth 2048 in
/-- Bit-level facts about the packed-12 layout, for a high byte `a` and a
nibble `b`. -/
theorem packed12_small : ∀ a, a < 256 → ∀ b, b < 16 →
    ((a <<< 4) ||| b = a * 16 + b ∧ (b <<< 4) >>> 4 = b ∧
      (((a <<< 4) ||| b) &&& 2048 = 0 ↔ a < 128)) := by
  decide

/-- The first register write of `_configure` is always `ctrl_hum`. -/
theorem configureRun_head (o : BMEOptions) :
    (configureRun o).1.head? = some (0xF2, ctrlHumByte o) := by
  unfold configureRun
  split <;> rfl

/-! ### C1: signed 16-bit little-endian decoding -/

/-- C1 (code_bug): at the failing input `low = 0, high = 0x80` the source's
`_s16_le` returns `0x8000 - 0x100000 = -1015808`, not the 16-bit
sign-extension `u16_le - 65536 = -32768` that both the spec and the
function's own docstring ("signed 16-bit int, two's complement") require:
bme280.py:214 subtracts `0x100000` (2^20) instead of `0x10000` (2^16). -/
theorem c1_s16_le_divergence :
    s16_le 0 0x80 = -1015808 ∧ u16_le 0 0x80 = 32768 ∧
      (-1015808 : Int) ≠ 32768 - 65536 := by
  decide

/-! ### C2: oversampling codes 6 and 7 versus 5 -/

/-- C2 (counterexample): with every other option at its constructor default,
humidity-oversampling code 6 does not produce the same register bytes as
code 5 — the code only masks with `& 0x07`, so the `ctrl_hum` byte is 6,
not 5. -/
theorem c2_counterexample :
    configureRun (withOsrsH defaultOptions 6) ≠
      configureRun (withOsrsH defaultOptions 5) := by
  decide

/-- C2 (amended): oversampling codes are masked into their 3-bit field
unchanged, so codes 6 and 7 produce configuration-register bytes that
differ from those of code 5, while any code `c` produces exactly the bytes
of `c % 8` (for the humidity, temperature and pressure fields alike). -/
theorem c2_oversampling_mask (o : BMEOptions) :
    configureRun (withOsrsH o 6) ≠ configureRun (withOsrsH o 5) ∧
    configureRun (withOsrsH o 7) ≠ configureRun (withOsrsH o 5) ∧
    ∀ c : Nat,
      configureRun (withOsrsH o c) = configureRun (withOsrsH o (c % 8)) ∧
      configureRun (withOsrsT o c) = configureRun (withOsrsT o (c % 8)) ∧
      configureRun (withOsrsP o c) = configureRun (withOsrsP o (c % 8)) := by
  refine ⟨?_, ?_, ?_⟩
  · intro heq
    have hh : (configureRun (withOsrsH o 6)).1.head? =
        (configureRun (withOsrsH o 5)).1.head? := by rw [heq]
    rw [configureRun_head, configureRun_head] at hh
    simp [ctrlHumByte, withOsrsH] at hh
    exact absurd hh (by decide)
  · intro heq
    have hh : (configureRun (withOsrsH o 7)).1.head? =
        (configureRun (withOsrsH o 5)).1.head? := by rw [heq]
    rw [configureRun_head, configureRun_head] at hh
    simp [ctrlHumByte, withOsrsH] at hh
    exact absurd hh (by decide)
  · intro c
    have hmask : c &&& 7 = c % 8 &&& 7 := by
      rw [and_seven_eq_mod, and_seven_eq_mod]
      omega
    refine ⟨?_, ?_, ?_⟩
    · show configureRun (withOsrsH o c) = configureRun (withOsrsH o (c % 8))
      unfold configureRun ctrlHumByte configByte ctrlMeasByte withOsrsH
      simp only [hmask]
    · show configureRun (withOsrsT o c) = configureRun (withOsrsT o (c % 8))
      unfold configureRun ctrlHumByte configByte ctrlMeasByte withOsrsT
      simp only [hmask]
    · show configureRun (withOsrsP o c) = configureRun (withOsrsP o (c % 8))
      unfold configureRun ctrlHumByte configByte ctrlMeasByte withOsrsP
      simp only [hmask]

/-! ### C3: the configure write sequence -/

/-- C3: for every valid option set (the interface flag fits its 1-bit
field), `_configure` performs exactly three register writes, in the order
`ctrl_hum` (0xF2), then `config` (0xF5), then `ctrl_meas` (0xF4), the last
packing temperature oversampling into bits 7:5, pressure oversampling into
bits 4:2 and the power mode into bits 1:0. -/
theorem c3_configure_write_sequence (o : BMEOptions) (h : o.spi3w_en < 2) :
    configureRun o =
      ([(0xF2, o.osrs_h % 8),
        (0xF5, o.t_sb % 8 * 32 + o.filter_coef % 8 * 4 + o.spi3w_en),
        (0xF4, o.osrs_t % 8 * 32 + o.osrs_p % 8 * 4 + o.mode % 4)], true) := by
  have hhum : ctrlHumByte o = o.osrs_h % 8 := and_seven_eq_mod o.osrs_h
  have hcfg : configByte o =
      o.t_sb % 8 * 32 + o.filter_coef % 8 * 4 + o.spi3w_en := by
    unfold configByte
    rw [and_seven_eq_mod, and_seven_eq_mod]
    exact pack_fields _ (Nat.mod_lt _ (by omega)) _ (Nat.mod_lt _ (by omega)) _
      (by omega)
  have hmeas : ctrlMeasByte o =
      o.osrs_t % 8 * 32 + o.osrs_p % 8 * 4 + o.mode % 4 := by
    unfold ctrlMeasByte
    rw [and_seven_eq_mod, and_seven_eq_mod, and_three_eq_mod]
    exact pack_fields _ (Nat.mod_lt _ (by omega)) _ (Nat.mod_lt _ (by omega)) _
      (Nat.mod_lt _ (by omega))
  have hlt : configByte o < 256 := by
    rw [hcfg]
    have := Nat.mod_lt o.t_sb (y := 8) (by omega)
    have := Nat.mod_lt o.filter_coef (y := 8) (by omega)
    omega
  unfold configureRun
  rw [if_pos hlt, hhum, hcfg, hmeas]

/-- Witness for C3 at the constructor defaults. -/
theorem c3_configure_write_sequence_witness :
    configureRun defaultOptions = ([(0xF2, 1), (0xF5, 0), (0xF4, 36)], true) := by
  have h := c3_configure_write_sequence defaultOptions (by decide)
  simpa using h

/-! ### C4: chip-identity verification at initialization -/

/-- C4: initialization reads one byte from the identity register 0xD0
before anything else, and when that byte is not the expected chip id 0x60
it fails with an error carrying the id actually read, having performed no
calibration read and no configuration write (the trace is exactly the one
identity read). -/
theorem c4_init_chip_check (regs : Nat → Nat) (o : BMEOptions)
    (h : regs 0xD0 ≠ 0x60) :
    (∀ r : Nat → Nat, (bmeInit r o).1.head? = some (BusOp.read 0xD0 1)) ∧
    bmeInit regs o = ([BusOp.read 0xD0 1], InitOutcome.chipIdError (regs 0xD0)) := by
  constructor
  · intro r
    unfold bmeInit
    split <;> rfl
  · unfold bmeInit
    rw [if_pos h]

/-- Witness for C4: a device whose identity register reads 0x61. -/
theorem c4_init_chip_check_witness :
    (bmeInit (fun _ => 0x61) defaultOptions).1.head? = some (BusOp.read 0xD0 1) ∧
    bmeInit (fun _ => 0x61) defaultOptions =
      ([BusOp.read 0xD0 1], InitOutcome.chipIdError 0x61) := by
  have h := c4_init_chip_check (fun _ => 0x61) defaultOptions (by decide)
  exact ⟨h.1 (fun _ => 0x61), h.2⟩

/-! ### C6: baseline load on concrete resources -/

/-- C6: the baseline load returns "not found" (modelled `none`, the `False`
return) on an empty resource, on `abc,def` (integer parse failure) and on
`1,2,3` (field count 3); on `37642,1205` it returns exactly the record
`(37642, 1205)`.  The parse-failure paths are the `ValueError` handler at
main.py:151-153, so no parse error reaches the caller. -/
theorem c6_load_baseline_cases :
    load_sgp30_baseline (some []) = none ∧
    load_sgp30_baseline (some ['a', 'b', 'c', ',', 'd', 'e', 'f']) = none ∧
    load_sgp30_baseline (some ['1', ',', '2', ',', '3']) = none ∧
    load_sgp30_baseline (some ['3', '7', '6', '4', '2', ',', '1', '2', '0', '5']) =
      some (37642, 1205) := by
  decide

/-! ### C7: the rate-limited baseline save -/

/-- C7: with the last-saved timestamp still at its initial value 0, a call
performs no save and only stores the current time; with any other stored
timestamp, a call invokes the save exactly when
`now - last ≥ interval`, and a save stores the current time (so the next
save is at least one interval later). -/
theorem c7_maybe_save_gate (last now interval : Int) (h : last ≠ 0) :
    (∀ n i : Int, maybe_save 0 n i = (n, false)) ∧
    ((maybe_save last now interval).2 = true ↔ interval ≤ now - last) ∧
    (maybe_save last now interval).1 =
      (if (maybe_save last now interval).2 then now else last) := by
  refine ⟨fun n i => by simp [maybe_save], ?_, ?_⟩
  · unfold maybe_save
    rw [if_neg h]
    split_ifs with hc <;> simp [hc]
  · unfold maybe_save
    rw [if_neg h]
    split_ifs <;> simp_all

/-- Witness for C7: a first call at time 5, and a later call one interval
after a save at time 3600. -/
theorem c7_maybe_save_gate_witness :
    maybe_save 0 5 3600 = (5, false) ∧
    ((maybe_save 3600 7200 3600).2 = true ↔ (3600 : Int) ≤ 7200 - 3600) ∧
    (maybe_save 3600 7200 3600).1 =
      (if (maybe_save 3600 7200 3600).2 then 7200 else 3600) := by
  have h := c7_maybe_save_gate 3600 7200 3600 (by decide)
  exact ⟨h.1 5 3600, h.2.1, h.2.2⟩

/-! ### C8: ordering inside the measurement pipeline -/

/-- C8: in every invocation of `read_environment`, the environmental sensor
is read (and compensated) first, the gas sensor's compensation input is set
with the humidity and temperature of that same invocation, and only after
that — never before — is the gas measurement requested (it is the last
operation of the trace). -/
theorem c8_read_environment_order (t p h eco2 tvoc : Int) :
    (read_environment (t, p, h) (eco2, tvoc)).1 = (t, p, h, eco2, tvoc) ∧
    ∃ pre, (read_environment (t, p, h) (eco2, tvoc)).2 =
        pre ++ [SensorOp.iaqMeasure] ∧
      SensorOp.setIaqRelHumidity h t ∈ pre ∧
      pre.head? = some SensorOp.bmeRead := by
  refine ⟨rfl, [SensorOp.bmeRead, SensorOp.setIaqRelHumidity h t], rfl, ?_, rfl⟩
  simp

/-! ### C9: zero denominator in pressure compensation -/

/-- C9: whenever the intermediate denominator term of the (spec-modelled)
pressure compensation formula is exactly zero, the computation returns a
pressure of exactly 0 Pa; the division is never executed on that path. -/
theorem c9_pressure_zero_denominator (adc_P t_fine : Int) (c : PressureCalib)
    (h : pressureDenominator t_fine c = 0) :
    compensate_pressure adc_P t_fine c = 0 := by
  simp [compensate_pressure, h]

/-- Witness for C9: the all-zero calibration set makes the denominator
vanish. -/
theorem c9_pressure_zero_denominator_witness :
    pressureDenominator 0 ⟨0, 0, 0, 0, 0, 0, 0, 0, 0⟩ = 0 ∧
    compensate_pressure 0 0 ⟨0, 0, 0, 0, 0, 0, 0, 0, 0⟩ = 0 := by
  refine ⟨by decide, ?_⟩
  exact c9_pressure_zero_denominator 0 0 _ (by decide)

/-! ### C5: packed-12 round trip -/

/-- C5: for every `v` in `[-2048, 2047]`, encoding `v` into the packed
nibble-shared 12-bit layout and decoding it with the source's assembly
returns exactly `v`, both through the low-nibble variant (`dig_H4`, shared
byte contributes its low nibble) and the high-nibble variant (`dig_H5`,
shared byte contributes its high nibble). -/
theorem c5_packed12_round_trip (v : Int) (h1 : -2048 ≤ v) (h2 : v ≤ 2047) :
    digH4 (encode12 v).1 (encode12 v).2 = v ∧
    digH5 ((encode12 v).2 <<< 4) (encode12 v).1 = v := by
  have ha : (v % 4096).toNat >>> 4 = (v % 4096).toNat / 16 := by
    rw [Nat.shiftRight_eq_div_pow]
  have hb : (v % 4096).toNat &&& 15 = (v % 4096).toNat % 16 := and_fifteen_eq_mod _
  obtain ⟨ho, hsh, hsg⟩ :=
    packed12_small ((v % 4096).toNat >>> 4) (by rw [ha]; omega)
      ((v % 4096).toNat &&& 15) (by rw [hb]; omega)
  have hmask : ((v % 4096).toNat &&& 15) &&& 15 = (v % 4096).toNat &&& 15 := by
    rw [hb, and_fifteen_eq_mod]
    omega
  have hval : ((v % 4096).toNat >>> 4) * 16 + ((v % 4096).toNat &&& 15) =
      (v % 4096).toNat := by
    rw [ha, hb]
    omega
  rw [ho, hval] at hsg
  have hsz : (1 <<< 12 : Nat) = 4096 := by decide
  constructor
  · show digH4 ((v % 4096).toNat >>> 4) ((v % 4096).toNat &&& 15) = v
    simp only [digH4, digH4_raw]
    rw [hmask, ho, hval, hsz]
    split_ifs with hs
    · have hge : ¬ (v % 4096).toNat >>> 4 < 128 := fun hlt => hs (hsg.mpr hlt)
      rw [ha] at hge
      push_cast
      omega
    · have hlt : (v % 4096).toNat >>> 4 < 128 := hsg.mp (not_not.mp hs)
      rw [ha] at hlt
      omega
  · show digH5 (((v % 4096).toNat &&& 15) <<< 4) ((v % 4096).toNat >>> 4) = v
    simp only [digH5, digH5_raw]
    rw [hsh, ho, hval, hsz]
    split_ifs with hs
    · have hge : ¬ (v % 4096).toNat >>> 4 < 128 := fun hlt => hs (hsg.mpr hlt)
      rw [ha] at hge
      push_cast
      omega
    · have hlt : (v % 4096).toNat >>> 4 < 128 := hsg.mp (not_not.mp hs)
      rw [ha] at hlt
      omega

/-- Witness for C5 at `v = -1` (both variants decode back to `-1`). -/
theorem c5_packed12_round_trip_witness :
    digH4 (encode12 (-1)).1 (encode12 (-1)).2 = -1 ∧
    digH5 ((encode12 (-1)).2 <<< 4) (encode12 (-1)).1 = -1 :=
  c5_packed12_round_trip (-1) (by norm_num) (by norm_num)

/-! ### C10: save/load round trip for the baseline file -/

/-- Every character `digitChar` produces is a decimal digit and is neither
a comma, nor whitespace, nor a sign. -/
theorem digitChar_props (d : Nat) :
    (digitChar d).isDigit = true ∧ digitChar d ≠ ',' ∧
      pyIsSpace (digitChar d) = false ∧ digitChar d ≠ '+' ∧ digitChar d ≠ '-' := by
  unfold digitChar
  split <;> decide

/-- The value of `digitChar d` for an in-range digit. -/
theorem digitChar_val (d : Nat) (h : d < 10) : (digitChar d).toNat - 48 = d := by
  interval_cases d <;> decide

/-- `natDecimal` never produces the empty string. -/
theorem natDecimal_ne_nil (n : Nat) : natDecimal n ≠ [] := by
  unfold natDecimal
  split
  · simp
  · simp

/-- Every character of `natDecimal n` comes from `digitChar`. -/
theorem natDecimal_chars (n : Nat) :
    ∀ c ∈ natDecimal n, ∃ d, c = digitChar d := by
  induction n using Nat.strong_induction_on with
  | _ n ih =>
    intro c hc
    rw [natDecimal] at hc
    split at hc
    · simp at hc
      exact ⟨n, hc⟩
    · rcases List.mem_append.mp hc with hl | hr
      · exact ih (n / 10) (Nat.div_lt_self (by omega) (by omega)) c hl
      · simp at hr
        exact ⟨n % 10, hr⟩

/-- Appending one character multiplies the accumulated value by ten. -/
theorem digitsVal_append (xs : List Char) (c : Char) :
    digitsVal (xs ++ [c]) = 10 * digitsVal xs + (c.toNat - 48) := by
  unfold digitsVal
  rw [List.foldl_append]
  rfl

/-- `digitsVal` recovers the number rendered by `natDecimal`. -/
theorem digitsVal_natDecimal (n : Nat) : digitsVal (natDecimal n) = n := by
  induction n using Nat.strong_induction_on with
  | _ n ih =>
    rw [natDecimal]
    split
    · show digitsVal [digitChar n] = n
      unfold digitsVal
      simp [digitChar_val n (by omega)]
    · rw [digitsVal_append, ih (n / 10) (Nat.div_lt_self (by omega) (by omega)),
        digitChar_val (n % 10) (Nat.mod_lt _ (by omega))]
      omega

/-- `parseDigits` inverts `natDecimal`. -/
theorem parseDigits_natDecimal (n : Nat) : parseDigits (natDecimal n) = some n := by
  unfold parseDigits
  rw [if_pos, digitsVal_natDecimal]
  refine ⟨natDecimal_ne_nil n, ?_⟩
  rw [List.all_eq_true]
  intro c hc
  obtain ⟨d, rfl⟩ := natDecimal_chars n c hc
  exact (digitChar_props d).1

/-- `dropWhile` is the identity on a list none of whose characters satisfy
the predicate. -/
theorem dropWhile_eq_self (p : Char → Bool) (l : List Char)
    (h : ∀ c ∈ l, p c = false) : l.dropWhile p = l := by
  cases l with
  | nil => rfl
  | cons c t =>
    rw [List.dropWhile_cons, h c (List.mem_cons_self c t)]
    simp

/-- Stripping is the identity on a string with no whitespace at all. -/
theorem pyStrip_eq_self (l : List Char) (h : ∀ c ∈ l, pyIsSpace c = false) :
    pyStrip l = l := by
  unfold pyStrip
  rw [dropWhile_eq_self _ _ h,
    dropWhile_eq_self _ _ (fun c hc => h c (List.mem_reverse.mp hc)),
    List.reverse_reverse]

/-- Stripping removes a single trailing newline from a whitespace-free
string. -/
theorem pyStrip_append_newline (m : List Char)
    (h : ∀ c ∈ m, pyIsSpace c = false) : pyStrip (m ++ ['\n']) = m := by
  cases m with
  | nil => decide
  | cons a t =>
    unfold pyStrip
    have hfront : ((a :: t) ++ ['\n']).dropWhile pyIsSpace = (a :: t) ++ ['\n'] := by
      rw [List.cons_append, List.dropWhile_cons,
        h a (List.mem_cons_self a t)]
      simp
    rw [hfront, List.reverse_append]
    show (('\n' :: (a :: t).reverse).dropWhile pyIsSpace).reverse = a :: t
    rw [List.dropWhile_cons]
    have hnl : pyIsSpace '\n' = true := by decide
    rw [hnl]
    simp only [if_true]
    rw [dropWhile_eq_self _ _ (fun c hc => h c (List.mem_reverse.mp hc)),
      List.reverse_reverse]

/-- Splitting at the single comma separating two comma-free pieces. -/
theorem splitComma_append (xs ys : List Char) (h : ',' ∉ xs) :
    splitComma (xs ++ ',' :: ys) = xs :: splitComma ys := by
  induction xs with
  | nil => simp [splitComma]
  | cons c t ih =>
    have hc : c ≠ ',' := fun hc => h (hc ▸ List.mem_cons_self c t)
    rw [List.cons_append, splitComma, if_neg hc,
      ih (fun hm => h (List.mem_cons_of_mem c hm))]

/-- A comma-free string does not split. -/
theorem splitComma_no_comma (xs : List Char) (h : ',' ∉ xs) :
    splitComma xs = [xs] := by
  induction xs with
  | nil => rfl
  | cons c t ih =>
    have hc : c ≠ ',' := fun hc => h (hc ▸ List.mem_cons_self c t)
    rw [splitComma, if_neg hc, ih (fun hm => h (List.mem_cons_of_mem c hm))]

/-- Python's `int` inverts `natDecimal`. -/
theorem pyInt_natDecimal (n : Nat) : pyInt (natDecimal n) = some (n : Int) := by
  have hsp : ∀ c ∈ natDecimal n, pyIsSpace c = false := by
    intro c hc
    obtain ⟨d, rfl⟩ := natDecimal_chars n c hc
    exact (digitChar_props d).2.2.1
  obtain ⟨c, r, hcr⟩ : ∃ c r, natDecimal n = c :: r := by
    cases hnd : natDecimal n with
    | nil => exact absurd hnd (natDecimal_ne_nil n)
    | cons c r => exact ⟨c, r, rfl⟩
  obtain ⟨d, hd⟩ := natDecimal_chars n c (hcr ▸ List.mem_cons_self c r)
  unfold pyInt
  rw [pyStrip_eq_self _ hsp, hcr, pyIntSigned,
    if_neg (by rw [hd]; exact (digitChar_props d).2.2.2.1),
    if_neg (by rw [hd]; exact (digitChar_props d).2.2.2.2),
    ← hcr, parseDigits_natDecimal]
  rfl

/-- C10: saving any pair of 16-bit baselines (decimal text, comma
separator, trailing newline) and loading the result returns exactly the
integers that were saved: the load strips the newline the save appends, so
the round trip never fails to parse. -/
theorem c10_baseline_round_trip (a b : Nat) (_ha : a < 65536) (_hb : b < 65536) :
    load_sgp30_baseline (some (save_content a b)) = some ((a : Int), (b : Int)) := by
  have hm : ∀ c ∈ natDecimal a ++ ',' :: natDecimal b, pyIsSpace c = false := by
    intro c hc
    rcases List.mem_append.mp hc with hl | hr
    · obtain ⟨d, rfl⟩ := natDecimal_chars a c hl
      exact (digitChar_props d).2.2.1
    · rcases List.mem_cons.mp hr with rfl | hr2
      · decide
      · obtain ⟨d, rfl⟩ := natDecimal_chars b c hr2
        exact (digitChar_props d).2.2.1
  have hraw : save_content a b = (natDecimal a ++ ',' :: natDecimal b) ++ ['\n'] := by
    unfold save_content
    simp
  have hnocomma : ∀ k : Nat, ',' ∉ natDecimal k := by
    intro k hk
    obtain ⟨d, hd⟩ := natDecimal_chars k ',' hk
    exact (digitChar_props d).2.1 hd.symm
  have hsplit : splitComma (natDecimal a ++ ',' :: natDecimal b) =
      [natDecimal a, natDecimal b] := by
    rw [splitComma_append _ _ (hnocomma a), splitComma_no_comma _ (hnocomma b)]
  simp only [load_sgp30_baseline]
  rw [hraw, pyStrip_append_newline _ hm, if_neg (by simp)]
  simp only [hsplit, pyInt_natDecimal]

/-- Witness for C10 at the spec's example baseline `37642,1205`. -/
theorem c10_baseline_round_trip_witness :
    load_sgp30_baseline (some (save_content 37642 1205)) = some (37642, 1205) :=
  c10_baseline_round_trip 37642 1205 (by norm_num) (by norm_num)

end PicoAirSense
